import Mathlib

/-
Verification of the nancealoid vocal-tract waveguide (src/tract.c,
feature-complete variant).  C doubles are modelled as real numbers;
the per-sample `run_tract` loop is modelled as a function from the
front buffer to the back buffer: every amplitude the loop writes is a
sum of increments that are computed purely from the front buffer, so
each back-buffer cell is the sum of the (at most two) contributions
the loop deposits into it.  The `rand`-driven `noise()` values are
modelled as arbitrary input streams (one per loop branch).
-/

namespace Nancealoid

noncomputable section

/-- Speed of sound constant, cm per second (tract.c line 455). -/
def SPEED_OF_SOUND : ℝ := 34300

/-- Impedance of schwa (tract.c line 457). -/
def NEUTRAL_Z : ℝ := 1

/-- Impedance of the throat (tract.c line 458). -/
def THROAT_Z : ℝ := 5

/-- Acoustic impedance at the opening of the lips (tract.c line 459). -/
def DRAIN_Z : ℝ := 0.1

/-- Area floor avoiding division by zero (tract.c line 460). -/
def MIN_AREA : ℝ := 0.000001

/-- Tongue-zone start as a fraction of the tract (tract.c line 476). -/
def TONGUE_BACK : ℝ := 0.2

/-- Tongue-zone stop as a fraction of the tract (tract.c line 477). -/
def TONGUE_FRONT : ℝ := 0.9

/-- Frication noise multiplier (tract.c line 500). -/
def FRICATION : ℝ := 0.1

/-- Damping factor of the wall-deformation relaxation (tract.c line 506). -/
def PHYSICAL_DAMPING : ℝ := 1

/-- Rigidity assigned to lip-zone segments (tract.c line 508). -/
def LIPS_RIGIDITY : ℝ := 1

/-- C cast of a double to int: truncation toward zero. -/
def truncToInt (x : ℝ) : ℤ := if 0 ≤ x then ⌊x⌋ else ⌈x⌉

/-- A waveguide segment (tract.c lines 521-527): impedance, target
impedance, rigidity and the two traveling-wave amplitudes. -/
structure Segment where
  z : ℝ
  target_z : ℝ
  rigidity : ℝ
  left : ℝ
  right : ℝ

/-- An articulatory target (tract.c lines 542-548). -/
structure Phoneme where
  tongue_height : ℝ
  tongue_position : ℝ
  lips_roundedness : ℝ

/-- Reflection coefficient from source impedance to target impedance
(tract.c lines 743-745). -/
def reflection (source_z target_z : ℝ) : ℝ :=
  (target_z - source_z) / (target_z + source_z)

/-- Per-step parameters of `run_tract`: the globals `damping` and
`diaphram_pressure`, the interpolation drag, the glottal source sample,
and the two frication-noise input streams (the values `noise()` returns
in the right-moving and left-moving branch of each loop iteration). -/
structure Params where
  damping : ℝ
  pressure : ℝ
  drag : ℝ
  glottal : ℝ
  noiseR : ℕ → ℝ
  noiseL : ℕ → ℝ

/-- Carry-over pass for one segment (tract.c lines 766-781): copy
`target_z` and `rigidity`, zero the amplitudes, and relax the area
toward the target area with `PHYSICAL_DAMPING`, clamping a negative
area to `MIN_AREA` before converting back to an impedance. -/
def carrySeg (old : Segment) : Segment :=
  let old_area := 1 / old.z
  let target_area := 1 / old.target_z
  let delta := target_area - old_area
  let new_area := old_area + delta * PHYSICAL_DAMPING
  let new_area2 := if new_area < 0 then MIN_AREA else new_area
  { z := 1 / new_area2, target_z := old.target_z, rigidity := old.rigidity,
    left := 0, right := 0 }

/-- Impedance produced by the carry-over pass. -/
def carryZ (old : Segment) : ℝ := (carrySeg old).z

/-- Final rightGoing amplitude of back-buffer segment `k` after the
scattering loop (tract.c lines 784-854).  Segment `k` receives a
rightGoing increment from its own iteration's right-moving branch
(lines 793-807: the glottis branch at `k = 0`, otherwise the part of
the left neighbour's rightGoing wave transmitted through the junction)
and, for `1 ≤ k ≤ n-1`, from iteration `k-1`'s left-moving branch
(lines 832-845: the reflected part of segment `k`'s leftGoing wave,
attenuated by `1 - damping`, plus the frication noise of that branch). -/
def backRight (p : Params) (f : ℕ → Segment) (n k : ℕ) : ℝ :=
  (if k = 0 then
    (f 0).left * (1 - p.damping)
      + p.glottal * (1 - reflection DRAIN_Z (f 0).z) + p.pressure
  else
    (f (k - 1)).right - (f (k - 1)).right * reflection (f (k - 1)).z (f k).z)
  + (if 1 ≤ k ∧ k < n then
      let refl := (f k).left * reflection (f k).z (f (k - 1)).z
      refl * (1 - p.damping) + FRICATION * max refl 0 * p.noiseL (k - 1)
    else 0)

/-- Final leftGoing amplitude of back-buffer segment `k` after the
scattering loop (tract.c lines 784-854).  Segment `k` receives a
leftGoing increment from its own iteration's left-moving branch
(lines 822-845: the lip reflection against `DRAIN_Z` at `k = n-1`,
attenuated by `1 - damping`, otherwise the part of the right
neighbour's leftGoing wave transmitted through the junction) and, for
`k + 1 ≤ n-1`, from iteration `k+1`'s right-moving branch (lines
799-813: the reflected part of segment `k`'s rightGoing wave,
attenuated by `1 - damping`, plus the frication noise of that branch). -/
def backLeft (p : Params) (f : ℕ → Segment) (n k : ℕ) : ℝ :=
  (if k = n - 1 then
    (f k).right * reflection (f k).z DRAIN_Z * (1 - p.damping)
  else
    (f (k + 1)).left - (f (k + 1)).left * reflection (f (k + 1)).z (f k).z)
  + (if k + 1 < n then
      let refl := (f k).right * reflection (f k).z (f (k + 1)).z
      refl * (1 - p.damping) + FRICATION * max refl 0 * p.noiseR (k + 1)
    else 0)

/-- Final impedance of back-buffer segment `k` after the scattering
loop: the local `area` starts from the carry-over impedance (line 789),
each branch of iteration `k` perturbs it by its reflection magnitude
times `1 - rigidity` (lines 817, 830, 848), and a negative area is
clamped to `MIN_AREA` before the conversion back (lines 852-853). -/
def backZ (f : ℕ → Segment) (n k : ℕ) : ℝ :=
  let a0 := 1 / carryZ (f k)
  let a1 := a0 +
    (if 1 ≤ k then
      (f (k - 1)).right * reflection (f (k - 1)).z (f k).z * (1 - (f k).rigidity)
    else 0)
  let a2 := a1 +
    (if k = n - 1 then
      (f k).right * reflection (f k).z DRAIN_Z * (1 - (f k).rigidity)
    else
      (f (k + 1)).left * reflection (f (k + 1)).z (f k).z * (1 - (f k).rigidity))
  let a3 := if a2 < 0 then MIN_AREA else a2
  1 / a3

/-- The output sample of the step: the transmitted part of the last
segment's rightGoing wave at the lip opening (tract.c lines 824-826). -/
def drainOut (f : ℕ → Segment) (n : ℕ) : ℝ :=
  if n = 0 then 0
  else (f (n - 1)).right - (f (n - 1)).right * reflection (f (n - 1)).z DRAIN_Z

/-- The whole back buffer produced by the carry-over pass plus the
scattering loop; cells beyond the chain length keep the stale content
`fb` of the previous back buffer. -/
def scatterBack (p : Params) (f : ℕ → Segment) (n : ℕ) (fb : ℕ → Segment) :
    ℕ → Segment := fun k =>
  if k < n then
    { z := backZ f n k, target_z := (f k).target_z, rigidity := (f k).rigidity,
      left := backLeft p f n k, right := backRight p f n k }
  else fb k

/-- Phoneme interpolation toward the target (tract.c lines 859-865):
each field moves toward the target field by the drag fraction of the
remaining distance. -/
def advancePhoneme (cur tgt : Phoneme) (drag : ℝ) : Phoneme :=
  { tongue_height := cur.tongue_height
      + (tgt.tongue_height - cur.tongue_height) * drag,
    tongue_position := cur.tongue_position
      + (tgt.tongue_position - cur.tongue_position) * drag,
    lips_roundedness := cur.lips_roundedness
      + (tgt.lips_roundedness - cur.lips_roundedness) * drag }

/-- Iterated phoneme interpolation with a fixed target and drag. -/
def iterAdvance (cur tgt : Phoneme) (drag : ℝ) : ℕ → Phoneme
  | 0 => cur
  | k + 1 => advancePhoneme (iterAdvance cur tgt drag k) tgt drag

/-- First tongue-zone segment index (tract.c line 614): the C int cast
of `TONGUE_BACK * nsegments`. -/
def tongueStart (n : ℕ) : ℤ := truncToInt (TONGUE_BACK * n)

/-- One past the last tongue-zone segment index (tract.c line 615). -/
def tongueStop (n : ℕ) : ℤ := truncToInt (TONGUE_FRONT * n)

/-- The shape function on one segment (tract.c lines 608-640): segments
before the tongue zone get the throat impedance, segments at or after
its end get the lip impedance (and the lip rigidity), and tongue-zone
segments follow the raised-cosine profile; `set_z` additionally snaps
the impedance to the computed target (line 637-638).  The traveling
wave amplitudes are never touched. -/
def updateShapeSeg (ph : Phoneme) (n i : ℕ) (set_z : Bool) (s : Segment) :
    Segment :=
  let start := tongueStart n
  let stop := tongueStop n
  let ntongue := stop - start
  let t : ℝ :=
    if (i : ℤ) < start then THROAT_Z
    else if stop ≤ (i : ℤ) then
      1 / (1 - ph.lips_roundedness + MIN_AREA) * NEUTRAL_Z
    else
      let unit_pos := ((i : ℝ) - (start : ℝ)) / ((ntongue : ℝ) - 1)
      let phase := unit_pos - ph.tongue_position
      let value := Real.cos (phase * Real.pi / 2) * ph.tongue_height
      let unit_area := 1 - value
      1 / (unit_area + MIN_AREA) * NEUTRAL_Z
  let r : ℝ :=
    if (i : ℤ) < start then s.rigidity
    else if stop ≤ (i : ℤ) then LIPS_RIGIDITY
    else s.rigidity
  { s with target_z := t, rigidity := r, z := if set_z then t else s.z }

/-- The shape function over the whole front buffer (the loop of
tract.c lines 619-639); indices beyond the chain length are untouched. -/
def updateShapeBuf (ph : Phoneme) (n : ℕ) (set_z : Bool) (f : ℕ → Segment) :
    ℕ → Segment := fun i =>
  if i < n then updateShapeSeg ph n i set_z (f i) else f i

/-- The global tract state: the chain length, the two physical segment
buffers `buffer1`/`buffer2` (tract.c lines 538-539), which of them is
currently the front buffer (tract.c lines 536-537, 595-603), and the
current phoneme (tract.c line 573). -/
structure TractState where
  n : ℕ
  buf1 : ℕ → Segment
  buf2 : ℕ → Segment
  frontIs1 : Bool
  current : Phoneme

/-- The buffer `segments_front` currently points at. -/
def front (s : TractState) : ℕ → Segment :=
  if s.frontIs1 then s.buf1 else s.buf2

/-- The buffer `segments_back` currently points at. -/
def backBuf (s : TractState) : ℕ → Segment :=
  if s.frontIs1 then s.buf2 else s.buf1

/-- A freshly initialized segment (tract.c lines 666-682): neutral
impedance and target, full rigidity, zero amplitudes. -/
def initSeg : Segment :=
  { z := NEUTRAL_Z, target_z := NEUTRAL_Z, rigidity := 1, left := 0, right := 0 }

/-- Length of one segment in cm (tract.c line 649). -/
def unitLengthOf (rate : ℝ) : ℝ := SPEED_OF_SOUND / rate

/-- Number of segments approximating the desired length
(tract.c line 652): the C int cast of `desired_length / unit_length`. -/
def nsegmentsOf (desired rate : ℝ) : ℤ := truncToInt (desired / unitLengthOf rate)

/-- The actual tract length (tract.c line 655). -/
def tractLengthOf (desired rate : ℝ) : ℝ :=
  (nsegmentsOf desired rate : ℝ) * unitLengthOf rate

/-- `init_tract` with the segment count already computed (tract.c lines
657-695): both buffers neutral, `buffer1` becomes the front buffer,
and the shape function runs over the front buffer with `set_z = 1`
against the current phoneme `ph`. -/
def initTract (n : ℕ) (ph : Phoneme) : TractState :=
  { n := n,
    buf1 := updateShapeBuf ph n true (fun _ => initSeg),
    buf2 := fun _ => initSeg,
    frontIs1 := true,
    current := ph }

/-- `run_tract` for one sample (tract.c lines 755-876): compute the
back buffer from the front buffer, swap the buffer roles, advance the
current phoneme toward the target, and re-run the shape function with
`set_z = 0` on the new front buffer.  Returns the new state and the
drain output sample. -/
def runTract (p : Params) (tgt : Phoneme) (s : TractState) :
    TractState × ℝ :=
  let f := front s
  let nb := updateShapeBuf (advancePhoneme s.current tgt p.drag) s.n false
    (scatterBack p f s.n (backBuf s))
  (if s.frontIs1 then
    { s with buf2 := nb, frontIs1 := false,
             current := advancePhoneme s.current tgt p.drag }
  else
    { s with buf1 := nb, frontIs1 := true,
             current := advancePhoneme s.current tgt p.drag },
  drainOut f s.n)

/-- `resize_tract` with the new segment count already computed (tract.c
lines 705-724): re-run the full initialization against the current
phoneme, then copy the traveling-wave amplitudes of the overlapping
index range from the old `buffer1`/`buffer2` into the new ones. -/
def resizeTract (m : ℕ) (s : TractState) : TractState :=
  let fresh := initTract m s.current
  let nmin := min s.n m
  { fresh with
    buf1 := fun i =>
      if i < nmin then
        { fresh.buf1 i with left := (s.buf1 i).left, right := (s.buf1 i).right }
      else fresh.buf1 i,
    buf2 := fun i =>
      if i < nmin then
        { fresh.buf2 i with left := (s.buf2 i).left, right := (s.buf2 i).right }
      else fresh.buf2 i }

/-- Allocation-aware model of `resize_tract`: `init_tract` calls
`malloc` for both buffers (tract.c lines 658-659) and never checks the
result; if an allocation fails, the initialization loop immediately
writes through the null pointer (line 671), which crashes the process
(undefined behavior) — modelled as `none`.  No code path returns with
the previous chain intact after a failed allocation. -/
def resizeTractAlloc (allocOk : Bool) (m : ℕ) (s : TractState) :
    Option TractState :=
  if allocOk then some (resizeTract m s) else none

/-- Total squared traveling-wave amplitude of the first `n` segments
(the quantity of the energy claim). -/
def sumSquares (f : ℕ → Segment) (n : ℕ) : ℝ :=
  ∑ i ∈ Finset.range n, ((f i).left ^ 2 + (f i).right ^ 2)

/-- Impedance-weighted traveling-wave energy of the first `n` segments. -/
def energy (f : ℕ → Segment) (n : ℕ) : ℝ :=
  ∑ i ∈ Finset.range n, (f i).z * ((f i).left ^ 2 + (f i).right ^ 2)

/-- Scalar version of the per-field phoneme interpolation. -/
def driftIter (c t d : ℝ) : ℕ → ℝ
  | 0 => c
  | k + 1 => driftIter c t d k + (t - driftIter c t d k) * d

/-- Well-formedness of one segment: positive impedance and target
impedance, and a unit rigidity. -/
def SegOK (s : Segment) : Prop := 0 < s.z ∧ 0 < s.target_z ∧ s.rigidity = 1

/-- The phoneme ranges the program maintains: tongue height and lip
roundedness in `[0,1]` (the MIDI adapter maps controller values into
`[0,1]`, tract.c lines 913 and 924, and every preset lies within). -/
def PhonemeOK (p : Phoneme) : Prop :=
  0 ≤ p.tongue_height ∧ p.tongue_height ≤ 1
    ∧ 0 ≤ p.lips_roundedness ∧ p.lips_roundedness ≤ 1

/-- Well-formedness of the whole tract state. -/
def StateOK (s : TractState) : Prop :=
  (∀ i < s.n, SegOK (s.buf1 i) ∧ SegOK (s.buf2 i)) ∧ PhonemeOK s.current

/-- The drag range: the program keeps `interpolation_drag` within
`[0.0001, 0.001]` (tract.c lines 480-482, 929); any drag in `[0,1]`
is allowed here, a superset. -/
def ParamsOK (p : Params) : Prop := 0 ≤ p.drag ∧ p.drag ≤ 1

/-- States of the tract reachable from `init_tract` by any sequence of
`run_tract` steps (with in-range drag and target phoneme, arbitrary
damping, pressure, source and noise) and `resize_tract` calls. -/
inductive Reachable : TractState → Prop
  | init (n : ℕ) (ph : Phoneme) (hph : PhonemeOK ph) : Reachable (initTract n ph)
  | step (p : Params) (tgt : Phoneme) (s : TractState) (hp : ParamsOK p)
      (htgt : PhonemeOK tgt) (hs : Reachable s) : Reachable (runTract p tgt s).1
  | resize (m : ℕ) (s : TractState) (hs : Reachable s) :
      Reachable (resizeTract m s)

end

/-! ## Helper lemmas -/

lemma reflection_lt_one {z1 z2 : ℝ} (h1 : 0 < z1) (h2 : 0 < z2) :
    reflection z1 z2 < 1 := by
  rw [reflection, div_lt_one (by linarith)]
  linarith

lemma neg_one_lt_reflection {z1 z2 : ℝ} (h1 : 0 < z1) (h2 : 0 < z2) :
    -1 < reflection z1 z2 := by
  rw [reflection, lt_div_iff₀ (by linarith : (0:ℝ) < z2 + z1)]
  linarith

lemma reflection_antisymm (z1 z2 : ℝ) :
    reflection z1 z2 = -reflection z2 z1 := by
  rw [reflection, reflection, ← neg_div, neg_sub, add_comm z1 z2]

lemma reflection_sq_lt_one {z1 z2 : ℝ} (h1 : 0 < z1) (h2 : 0 < z2) :
    (reflection z1 z2) ^ 2 < 1 := by
  have ha := reflection_lt_one h1 h2
  have hb := neg_one_lt_reflection h1 h2
  nlinarith

lemma DRAIN_Z_pos : (0 : ℝ) < DRAIN_Z := by norm_num [DRAIN_Z]

lemma iterAdvance_height (cur tgt : Phoneme) (drag : ℝ) : ∀ k,
    (iterAdvance cur tgt drag k).tongue_height
      = driftIter cur.tongue_height tgt.tongue_height drag k
  | 0 => rfl
  | k + 1 => by
      rw [iterAdvance, driftIter, advancePhoneme, ← iterAdvance_height cur tgt drag k]

lemma iterAdvance_position (cur tgt : Phoneme) (drag : ℝ) : ∀ k,
    (iterAdvance cur tgt drag k).tongue_position
      = driftIter cur.tongue_position tgt.tongue_position drag k
  | 0 => rfl
  | k + 1 => by
      rw [iterAdvance, driftIter, advancePhoneme, ← iterAdvance_position cur tgt drag k]

lemma iterAdvance_lips (cur tgt : Phoneme) (drag : ℝ) : ∀ k,
    (iterAdvance cur tgt drag k).lips_roundedness
      = driftIter cur.lips_roundedness tgt.lips_roundedness drag k
  | 0 => rfl
  | k + 1 => by
      rw [iterAdvance, driftIter, advancePhoneme, ← iterAdvance_lips cur tgt drag k]

lemma driftIter_closed (c t d : ℝ) : ∀ k,
    t - driftIter c t d k = (1 - d) ^ k * (t - c)
  | 0 => by rw [driftIter]; ring
  | k + 1 => by
      rw [driftIter]
      calc t - (driftIter c t d k + (t - driftIter c t d k) * d)
          = (1 - d) * (t - driftIter c t d k) := by ring
        _ = (1 - d) * ((1 - d) ^ k * (t - c)) := by rw [driftIter_closed c t d k]
        _ = (1 - d) ^ (k + 1) * (t - c) := by ring

lemma driftIter_tendsto (c t d : ℝ) (h0 : 0 < d) (h1 : d ≤ 1) :
    Filter.Tendsto (driftIter c t d) Filter.atTop (nhds t) := by
  have hh : driftIter c t d = fun k => t - (1 - d) ^ k * (t - c) := by
    funext k
    have := driftIter_closed c t d k
    linarith
  rw [hh]
  have hp : Filter.Tendsto (fun k : ℕ => (1 - d) ^ k) Filter.atTop (nhds 0) :=
    tendsto_pow_atTop_nhds_zero_of_lt_one (by linarith) (by linarith)
  have := Filter.Tendsto.const_sub t (hp.mul_const (t - c))
  simpa using this

lemma driftIter_antitone (c t d : ℝ) (h0 : 0 ≤ d) (h1 : d ≤ 1) :
    Antitone (fun k => |t - driftIter c t d k|) := by
  intro k m hkm
  simp only [driftIter_closed, abs_mul, abs_pow, abs_of_nonneg (by linarith : (0:ℝ) ≤ 1 - d)]
  exact mul_le_mul_of_nonneg_right
    (pow_le_pow_of_le_one (by linarith) (by linarith) hkm) (abs_nonneg _)

lemma updateShapeSeg_left (ph : Phoneme) (n i : ℕ) (b : Bool) (s : Segment) :
    (updateShapeSeg ph n i b s).left = s.left := rfl

lemma updateShapeSeg_right (ph : Phoneme) (n i : ℕ) (b : Bool) (s : Segment) :
    (updateShapeSeg ph n i b s).right = s.right := rfl

lemma updateShapeSeg_z_of_not_set (ph : Phoneme) (n i : ℕ) (s : Segment) :
    (updateShapeSeg ph n i false s).z = s.z := rfl

lemma updateShapeSeg_target_throat (ph : Phoneme) (n i : ℕ) (b : Bool)
    (s : Segment) (h1 : (i : ℤ) < tongueStart n) :
    (updateShapeSeg ph n i b s).target_z = THROAT_Z := by
  simp only [updateShapeSeg, if_pos h1]

lemma updateShapeSeg_rigidity_throat (ph : Phoneme) (n i : ℕ) (b : Bool)
    (s : Segment) (h1 : (i : ℤ) < tongueStart n) :
    (updateShapeSeg ph n i b s).rigidity = s.rigidity := by
  simp only [updateShapeSeg, if_pos h1]

lemma updateShapeSeg_target_lips (ph : Phoneme) (n i : ℕ) (b : Bool)
    (s : Segment) (h1 : ¬ ((i : ℤ) < tongueStart n))
    (h2 : tongueStop n ≤ (i : ℤ)) :
    (updateShapeSeg ph n i b s).target_z
      = 1 / (1 - ph.lips_roundedness + MIN_AREA) * NEUTRAL_Z := by
  simp only [updateShapeSeg, if_neg h1, if_pos h2]

lemma updateShapeSeg_rigidity_lips (ph : Phoneme) (n i : ℕ) (b : Bool)
    (s : Segment) (h1 : ¬ ((i : ℤ) < tongueStart n))
    (h2 : tongueStop n ≤ (i : ℤ)) :
    (updateShapeSeg ph n i b s).rigidity = LIPS_RIGIDITY := by
  simp only [updateShapeSeg, if_neg h1, if_pos h2]

lemma updateShapeSeg_target_tongue (ph : Phoneme) (n i : ℕ) (b : Bool)
    (s : Segment) (h1 : ¬ ((i : ℤ) < tongueStart n))
    (h2 : ¬ (tongueStop n ≤ (i : ℤ))) :
    (updateShapeSeg ph n i b s).target_z
      = 1 / (1 - Real.cos ((((i : ℝ) - ((tongueStart n : ℤ) : ℝ))
            / (((tongueStop n - tongueStart n : ℤ) : ℝ) - 1)
          - ph.tongue_position) * Real.pi / 2) * ph.tongue_height
        + MIN_AREA) * NEUTRAL_Z := by
  simp only [updateShapeSeg, if_neg h1, if_neg h2]

lemma updateShapeSeg_rigidity_tongue (ph : Phoneme) (n i : ℕ) (b : Bool)
    (s : Segment) (h1 : ¬ ((i : ℤ) < tongueStart n))
    (h2 : ¬ (tongueStop n ≤ (i : ℤ))) :
    (updateShapeSeg ph n i b s).rigidity = s.rigidity := by
  simp only [updateShapeSeg, if_neg h1, if_neg h2]

lemma tongueStart_nonneg (n : ℕ) : 0 ≤ tongueStart n := by
  have hb : (0:ℝ) ≤ TONGUE_BACK * n := by rw [TONGUE_BACK]; positivity
  rw [tongueStart, truncToInt, if_pos hb]
  exact Int.floor_nonneg.mpr hb

lemma tongue_area_pos (c h : ℝ) (hc1 : -1 ≤ c) (hc2 : c ≤ 1)
    (h0 : 0 ≤ h) (h1 : h ≤ 1) : 0 < 1 - c * h + MIN_AREA := by
  rw [MIN_AREA]
  nlinarith

lemma shape_target_pos (ph : Phoneme) (hph : PhonemeOK ph) (n i : ℕ)
    (b : Bool) (s : Segment) : 0 < (updateShapeSeg ph n i b s).target_z := by
  by_cases h1 : (i : ℤ) < tongueStart n
  · rw [updateShapeSeg_target_throat ph n i b s h1, THROAT_Z]
    norm_num
  · by_cases h2 : tongueStop n ≤ (i : ℤ)
    · rw [updateShapeSeg_target_lips ph n i b s h1 h2, NEUTRAL_Z, mul_one]
      apply one_div_pos.mpr
      rw [MIN_AREA]
      have := hph.2.2.2
      norm_num
      linarith
    · rw [updateShapeSeg_target_tongue ph n i b s h1 h2, NEUTRAL_Z, mul_one]
      exact one_div_pos.mpr (tongue_area_pos _ _ (Real.neg_one_le_cos _)
        (Real.cos_le_one _) hph.1 hph.2.1)

lemma shape_rigidity_one (ph : Phoneme) (n i : ℕ) (b : Bool) (s : Segment)
    (hs : s.rigidity = 1) : (updateShapeSeg ph n i b s).rigidity = 1 := by
  by_cases h1 : (i : ℤ) < tongueStart n
  · rw [updateShapeSeg_rigidity_throat ph n i b s h1, hs]
  · by_cases h2 : tongueStop n ≤ (i : ℤ)
    · rw [updateShapeSeg_rigidity_lips ph n i b s h1 h2, LIPS_RIGIDITY]
    · rw [updateShapeSeg_rigidity_tongue ph n i b s h1 h2, hs]

lemma updateShapeSeg_z_of_set (ph : Phoneme) (n i : ℕ) (s : Segment) :
    (updateShapeSeg ph n i true s).z = (updateShapeSeg ph n i true s).target_z := rfl

lemma carryZ_eq_target (s : Segment) (ht : 0 < s.target_z) :
    carryZ s = s.target_z := by
  rw [carryZ, carrySeg]
  have h1 : 1 / s.z + (1 / s.target_z - 1 / s.z) * PHYSICAL_DAMPING
      = 1 / s.target_z := by
    rw [PHYSICAL_DAMPING]
    ring
  simp only [h1]
  rw [if_neg (not_lt.mpr (one_div_pos.mpr ht).le), one_div_one_div]

lemma backZ_eq_target (f : ℕ → Segment) (n k : ℕ)
    (hr : (f k).rigidity = 1) (ht : 0 < (f k).target_z) :
    backZ f n k = (f k).target_z := by
  rw [backZ]
  simp only [hr, sub_self, mul_zero, ite_self, add_zero, carryZ_eq_target (f k) ht]
  rw [if_neg (not_lt.mpr (one_div_pos.mpr ht).le), one_div_one_div]

lemma advance_ok (cur tgt : Phoneme) (drag : ℝ) (h0 : 0 ≤ drag)
    (h1 : drag ≤ 1) (hc : PhonemeOK cur) (ht : PhonemeOK tgt) :
    PhonemeOK (advancePhoneme cur tgt drag) := by
  obtain ⟨a1, a2, a3, a4⟩ := hc
  obtain ⟨b1, b2, b3, b4⟩ := ht
  refine ⟨?_, ?_, ?_, ?_⟩ <;> simp only [advancePhoneme] <;> nlinarith

lemma stepFront_ok (p : Params) (n : ℕ) (f fb : ℕ → Segment) (cur' : Phoneme)
    (hf : ∀ i < n, SegOK (f i)) (hcur : PhonemeOK cur') :
    ∀ i < n, SegOK (updateShapeBuf cur' n false (scatterBack p f n fb) i) := by
  intro i hi
  have hfi := hf i hi
  refine ⟨?_, ?_, ?_⟩
  · have hz : (updateShapeBuf cur' n false (scatterBack p f n fb) i).z
        = (f i).target_z := by
      simp only [updateShapeBuf, if_pos hi, updateShapeSeg_z_of_not_set,
        scatterBack]
      exact backZ_eq_target f n i hfi.2.2 hfi.2.1
    rw [hz]
    exact hfi.2.1
  · simp only [updateShapeBuf, if_pos hi]
    exact shape_target_pos cur' hcur n i false _
  · simp only [updateShapeBuf, if_pos hi]
    apply shape_rigidity_one
    simp only [scatterBack, if_pos hi]
    exact hfi.2.2

lemma front_ok (s : TractState) (hs : StateOK s) :
    ∀ i < s.n, SegOK (front s i) := by
  intro i hi
  cases hb : s.frontIs1
  · simp only [front, hb, Bool.false_eq_true, if_false]
    exact (hs.1 i hi).2
  · simp only [front, hb, if_true]
    exact (hs.1 i hi).1

lemma runTract_preserves_ok (p : Params) (tgt : Phoneme) (s : TractState)
    (hp : ParamsOK p) (htgt : PhonemeOK tgt) (hs : StateOK s) :
    StateOK (runTract p tgt s).1 := by
  have hcur' : PhonemeOK (advancePhoneme s.current tgt p.drag) :=
    advance_ok s.current tgt p.drag hp.1 hp.2 hs.2 htgt
  have hnew := stepFront_ok p s.n (front s) (backBuf s)
    (advancePhoneme s.current tgt p.drag) (front_ok s hs) hcur'
  cases hb : s.frontIs1
  · simp only [runTract, hb, Bool.false_eq_true, if_false]
    refine ⟨?_, hcur'⟩
    intro i hi
    exact ⟨hnew i hi, (hs.1 i hi).2⟩
  · simp only [runTract, hb, if_true]
    refine ⟨?_, hcur'⟩
    intro i hi
    exact ⟨(hs.1 i hi).1, hnew i hi⟩

lemma initSeg_ok : SegOK initSeg := by
  refine ⟨?_, ?_, rfl⟩ <;> rw [initSeg] <;> rw [NEUTRAL_Z] <;> norm_num

lemma initTract_ok (n : ℕ) (ph : Phoneme) (hph : PhonemeOK ph) :
    StateOK (initTract n ph) := by
  refine ⟨?_, hph⟩
  intro i hi
  have hi' : i < n := hi
  constructor
  · refine ⟨?_, ?_, ?_⟩
    · have hz : ((initTract n ph).buf1 i).z = ((initTract n ph).buf1 i).target_z := by
        simp only [initTract, updateShapeBuf, if_pos hi']
        exact updateShapeSeg_z_of_set ph n i initSeg
      rw [hz]
      simp only [initTract, updateShapeBuf, if_pos hi']
      exact shape_target_pos ph hph n i true initSeg
    · simp only [initTract, updateShapeBuf, if_pos hi']
      exact shape_target_pos ph hph n i true initSeg
    · simp only [initTract, updateShapeBuf, if_pos hi']
      exact shape_rigidity_one ph n i true initSeg initSeg_ok.2.2
  · exact initSeg_ok

lemma resizeTract_ok (m : ℕ) (s : TractState) (hs : StateOK s) :
    StateOK (resizeTract m s) := by
  have hfresh := initTract_ok m s.current hs.2
  refine ⟨?_, hs.2⟩
  intro i hi
  have hi' : i < m := hi
  constructor
  · by_cases him : i < min s.n m
    · simp only [resizeTract, if_pos him]
      exact (hfresh.1 i hi').1
    · simp only [resizeTract, if_neg him]
      exact (hfresh.1 i hi').1
  · by_cases him : i < min s.n m
    · simp only [resizeTract, if_pos him]
      exact (hfresh.1 i hi').2
    · simp only [resizeTract, if_neg him]
      exact (hfresh.1 i hi').2

lemma reachable_ok (s : TractState) (h : Reachable s) : StateOK s := by
  induction h with
  | init n ph hph => exact initTract_ok n ph hph
  | step p tgt s hp htgt hs ih => exact runTract_preserves_ok p tgt s hp htgt ih
  | resize m s hs ih => exact resizeTract_ok m s ih

lemma tongueStart_22 : tongueStart 22 = 4 := by
  rw [tongueStart, truncToInt, if_pos (by norm_num [TONGUE_BACK])]
  rw [Int.floor_eq_iff]; norm_num [TONGUE_BACK]

lemma tongueStop_22 : tongueStop 22 = 19 := by
  rw [tongueStop, truncToInt, if_pos (by norm_num [TONGUE_FRONT])]
  rw [Int.floor_eq_iff]; norm_num [TONGUE_FRONT]

lemma front_runTract (p : Params) (tgt : Phoneme) (s : TractState) :
    front (runTract p tgt s).1
      = updateShapeBuf (advancePhoneme s.current tgt p.drag) s.n false
          (scatterBack p (front s) s.n (backBuf s)) := by
  cases hb : s.frontIs1 <;> simp [runTract, front, hb]

lemma front_runTract_left (p : Params) (tgt : Phoneme) (s : TractState)
    (i : ℕ) (hi : i < s.n) :
    (front (runTract p tgt s).1 i).left = backLeft p (front s) s.n i := by
  rw [front_runTract]
  simp only [updateShapeBuf, if_pos hi, updateShapeSeg_left, scatterBack]

lemma front_runTract_right (p : Params) (tgt : Phoneme) (s : TractState)
    (i : ℕ) (hi : i < s.n) :
    (front (runTract p tgt s).1 i).right = backRight p (front s) s.n i := by
  rw [front_runTract]
  simp only [updateShapeBuf, if_pos hi, updateShapeSeg_right, scatterBack]

lemma front_runTract_z (p : Params) (tgt : Phoneme) (s : TractState)
    (i : ℕ) (hi : i < s.n) (hrig : (front s i).rigidity = 1)
    (hsteady : (front s i).target_z = (front s i).z)
    (hzi : 0 < (front s i).z) :
    (front (runTract p tgt s).1 i).z = (front s i).z := by
  rw [front_runTract]
  simp only [updateShapeBuf, if_pos hi, updateShapeSeg_z_of_not_set, scatterBack,
    if_pos hi]
  rw [backZ_eq_target (front s) s.n i hrig (by rw [hsteady]; exact hzi), hsteady]

lemma junction_le (z1 z2 R L d : ℝ) (h1 : 0 < z1) (h2 : 0 < z2)
    (hd0 : 0 ≤ d) (hd1 : d ≤ 1) :
    z1 * (L * (1 + reflection z1 z2) + R * (reflection z1 z2 * (1 - d))) ^ 2
        + z2 * (R * (1 - reflection z1 z2) - L * (reflection z1 z2 * (1 - d))) ^ 2
      ≤ z1 * R ^ 2 + z2 * L ^ 2 := by
  have hs : z1 + z2 ≠ 0 := by positivity
  have key : z1 * (L * (1 + reflection z1 z2) + R * (reflection z1 z2 * (1 - d))) ^ 2
        + z2 * (R * (1 - reflection z1 z2) - L * (reflection z1 z2 * (1 - d))) ^ 2
      = (z1 * R ^ 2 + z2 * L ^ 2)
        - (reflection z1 z2) ^ 2 * (1 - (1 - d) ^ 2) * (z1 * R ^ 2 + z2 * L ^ 2) := by
    rw [reflection]
    field_simp
    ring
  rw [key]
  have ha : 0 ≤ (reflection z1 z2) ^ 2 * (1 - (1 - d) ^ 2) :=
    mul_nonneg (sq_nonneg _) (by nlinarith)
  have hb : 0 ≤ z1 * R ^ 2 + z2 * L ^ 2 := by positivity
  nlinarith

lemma scatter_energy_le (p : Params) (f : ℕ → Segment) (n : ℕ)
    (hd0 : 0 ≤ p.damping) (hd1 : p.damping ≤ 1)
    (hg : p.glottal = 0) (hpr : p.pressure = 0)
    (hnL : ∀ k, p.noiseL k = 0) (hnR : ∀ k, p.noiseR k = 0)
    (hz : ∀ i < n, 0 < (f i).z) :
    ∑ i ∈ Finset.range n,
        (f i).z * ((backLeft p f n i) ^ 2 + (backRight p f n i) ^ 2)
      ≤ ∑ i ∈ Finset.range n, (f i).z * ((f i).left ^ 2 + (f i).right ^ 2) := by
  cases n with
  | zero => simp
  | succ m =>
    have hbR0 : backRight p f (m + 1) 0 = (f 0).left * (1 - p.damping) := by
      rw [backRight, if_pos rfl, if_neg (by omega : ¬(1 ≤ 0 ∧ 0 < m + 1)), hg, hpr]
      ring
    have hbLm : backLeft p f (m + 1) m
        = (f m).right * reflection (f m).z DRAIN_Z * (1 - p.damping) := by
      rw [backLeft, if_pos (by omega : m = m + 1 - 1),
        if_neg (by omega : ¬(m + 1 < m + 1))]
      ring
    have hbRj : ∀ j < m, backRight p f (m + 1) (j + 1)
        = (f j).right * (1 - reflection (f j).z (f (j + 1)).z)
          - (f (j + 1)).left * (reflection (f j).z (f (j + 1)).z * (1 - p.damping)) := by
      intro j hj
      rw [backRight, if_neg (by omega : ¬(j + 1 = 0)),
        if_pos (by omega : 1 ≤ j + 1 ∧ j + 1 < m + 1)]
      simp only [Nat.add_sub_cancel]
      rw [hnL j, reflection_antisymm (f (j + 1)).z (f j).z]
      ring
    have hbLj : ∀ j < m, backLeft p f (m + 1) j
        = (f (j + 1)).left * (1 + reflection (f j).z (f (j + 1)).z)
          + (f j).right * (reflection (f j).z (f (j + 1)).z * (1 - p.damping)) := by
      intro j hj
      rw [backLeft, if_neg (by omega : ¬(j = m + 1 - 1)),
        if_pos (by omega : j + 1 < m + 1)]
      rw [hnR (j + 1), reflection_antisymm (f (j + 1)).z (f j).z]
      ring
    have hjunc : ∀ j ∈ Finset.range m,
        (f j).z * (backLeft p f (m + 1) j) ^ 2
            + (f (j + 1)).z * (backRight p f (m + 1) (j + 1)) ^ 2
          ≤ (f j).z * (f j).right ^ 2 + (f (j + 1)).z * (f (j + 1)).left ^ 2 := by
      intro j hj
      have hjm := Finset.mem_range.mp hj
      rw [hbRj j hjm, hbLj j hjm]
      exact junction_le (f j).z (f (j + 1)).z (f j).right (f (j + 1)).left
        p.damping (hz j (by omega)) (hz (j + 1) (by omega)) hd0 hd1
    have hglottis : (f 0).z * (backRight p f (m + 1) 0) ^ 2
        ≤ (f 0).z * (f 0).left ^ 2 := by
      rw [hbR0]
      have hz0 := hz 0 (by omega)
      nlinarith [mul_nonneg hz0.le (sq_nonneg (f 0).left), sq_nonneg (f 0).left,
        mul_nonneg (mul_nonneg hz0.le (sq_nonneg (f 0).left))
          (mul_nonneg hd0 (by linarith : (0:ℝ) ≤ 2 - p.damping))]
    have hlips : (f m).z * (backLeft p f (m + 1) m) ^ 2
        ≤ (f m).z * (f m).right ^ 2 := by
      rw [hbLm]
      have hzm := hz m (by omega)
      have hr2 := reflection_sq_lt_one hzm DRAIN_Z_pos
      have hzr : 0 ≤ (f m).z * (f m).right ^ 2 :=
        mul_nonneg hzm.le (sq_nonneg _)
      nlinarith [mul_nonneg hzr (mul_nonneg hd0 (by linarith : (0:ℝ) ≤ 2 - p.damping)),
        mul_nonneg hzr (sq_nonneg (reflection (f m).z DRAIN_Z)),
        mul_nonneg hzr
          (mul_nonneg (mul_nonneg hd0 (by linarith : (0:ℝ) ≤ 2 - p.damping))
            (sq_nonneg (reflection (f m).z DRAIN_Z)))]
    calc ∑ i ∈ Finset.range (m + 1),
            (f i).z * ((backLeft p f (m + 1) i) ^ 2 + (backRight p f (m + 1) i) ^ 2)
        = (∑ i ∈ Finset.range (m + 1), (f i).z * (backLeft p f (m + 1) i) ^ 2)
            + ∑ i ∈ Finset.range (m + 1), (f i).z * (backRight p f (m + 1) i) ^ 2 := by
          rw [← Finset.sum_add_distrib]
          exact Finset.sum_congr rfl fun i _ => by ring
      _ = ((∑ j ∈ Finset.range m, (f j).z * (backLeft p f (m + 1) j) ^ 2)
            + (f m).z * (backLeft p f (m + 1) m) ^ 2)
          + ((∑ j ∈ Finset.range m, (f (j + 1)).z * (backRight p f (m + 1) (j + 1)) ^ 2)
            + (f 0).z * (backRight p f (m + 1) 0) ^ 2) := by
          rw [Finset.sum_range_succ, Finset.sum_range_succ']
      _ = (∑ j ∈ Finset.range m, ((f j).z * (backLeft p f (m + 1) j) ^ 2
            + (f (j + 1)).z * (backRight p f (m + 1) (j + 1)) ^ 2))
          + ((f 0).z * (backRight p f (m + 1) 0) ^ 2
            + (f m).z * (backLeft p f (m + 1) m) ^ 2) := by
          rw [Finset.sum_add_distrib]
          ring
      _ ≤ (∑ j ∈ Finset.range m, ((f j).z * (f j).right ^ 2
            + (f (j + 1)).z * (f (j + 1)).left ^ 2))
          + ((f 0).z * (f 0).left ^ 2 + (f m).z * (f m).right ^ 2) :=
          add_le_add (Finset.sum_le_sum hjunc) (add_le_add hglottis hlips)
      _ = ((∑ j ∈ Finset.range m, (f j).z * (f j).right ^ 2)
            + (f m).z * (f m).right ^ 2)
          + ((∑ j ∈ Finset.range m, (f (j + 1)).z * (f (j + 1)).left ^ 2)
            + (f 0).z * (f 0).left ^ 2) := by
          rw [Finset.sum_add_distrib]
          ring
      _ = (∑ i ∈ Finset.range (m + 1), (f i).z * (f i).right ^ 2)
          + ∑ i ∈ Finset.range (m + 1), (f i).z * (f i).left ^ 2 := by
          rw [Finset.sum_range_succ, Finset.sum_range_succ']
      _ = ∑ i ∈ Finset.range (m + 1), (f i).z * ((f i).left ^ 2 + (f i).right ^ 2) := by
          rw [← Finset.sum_add_distrib]
          exact Finset.sum_congr rfl fun i _ => by ring

/-! ## Claims -/

/-- C4: for all strictly positive impedances `z1` and `z2`,
`reflection z1 z2 = (z2 - z1) / (z2 + z1)` lies strictly between
`-1` and `1`, and `reflection z1 z2 = -reflection z2 z1`. -/
theorem reflection_bounds_antisymm (z1 z2 : ℝ) (h1 : 0 < z1) (h2 : 0 < z2) :
    (-1 < reflection z1 z2 ∧ reflection z1 z2 < 1)
      ∧ reflection z1 z2 = -reflection z2 z1 :=
  ⟨⟨neg_one_lt_reflection h1 h2, reflection_lt_one h1 h2⟩,
    reflection_antisymm z1 z2⟩

/-- Witness for C4 at the concrete impedances 1 and 3. -/
theorem reflection_bounds_antisymm_witness :
    (0 : ℝ) < 1 ∧ (0 : ℝ) < 3 ∧
      ((-1 < reflection 1 3 ∧ reflection 1 3 < 1)
        ∧ reflection 1 3 = -reflection 3 1) :=
  ⟨by norm_num, by norm_num,
    reflection_bounds_antisymm 1 3 (by norm_num) (by norm_num)⟩

/-- C9: initializing at desired length 17.5 cm and sample rate 44100 Hz
gives `unit_length = 34300 / 44100`, `nsegments = 22` and
`tract_length = 22 * unit_length`. -/
theorem init_scenario_values :
    unitLengthOf 44100 = 34300 / 44100
      ∧ nsegmentsOf 17.5 44100 = 22
      ∧ tractLengthOf 17.5 44100 = 22 * (34300 / 44100) := by
  have h1 : unitLengthOf 44100 = 34300 / 44100 := by
    norm_num [unitLengthOf, SPEED_OF_SOUND]
  have hq : (17.5 : ℝ) / unitLengthOf 44100 = 45 / 2 := by
    rw [h1]; norm_num
  have h2 : nsegmentsOf 17.5 44100 = 22 := by
    rw [nsegmentsOf, hq, truncToInt, if_pos (by norm_num)]
    rw [Int.floor_eq_iff]
    constructor <;> norm_num
  exact ⟨h1, h2, by rw [tractLengthOf, h2, h1]; norm_num⟩

/-- C1 (amended): at the glottis the energy arriving from the right is
deposited into the back buffer's rightGoing amplitude attenuated by
`1 - damping` (not losslessly), plus the glottal source scaled by
`1 - reflection DRAIN_Z z₀`, plus the diaphragm-pressure bias; this
holds for every front buffer, every input sample and every parameter
setting. -/
theorem glottis_update (p : Params) (f fb : ℕ → Segment) (n : ℕ)
    (hn : 0 < n) :
    (scatterBack p f n fb 0).right
      = (f 0).left * (1 - p.damping)
        + p.glottal * (1 - reflection DRAIN_Z (f 0).z) + p.pressure := by
  simp [scatterBack, backRight, hn]

/-- Concrete step parameters for the C1 instances: the default damping
0.04, zero source, zero pressure, zero noise. -/
def p1 : Params :=
  { damping := 0.04, pressure := 0, drag := 0, glottal := 0,
    noiseR := fun _ => 0, noiseL := fun _ => 0 }

/-- Concrete one-segment front buffer for the C1 instances: unit
impedance and a unit leftGoing wave arriving at the glottis. -/
def f1 : ℕ → Segment :=
  fun _ => { z := 1, target_z := 1, rigidity := 1, left := 1, right := 0 }

/-- Counterexample to C1 as stated: with the default damping 0.04 the
back buffer's rightGoing amplitude at the glottis is 0.96, not the
lossless value 1 the claim asserts. -/
theorem glottis_no_loss_false :
    ¬ ((scatterBack p1 f1 1 f1 0).right
        = (f1 0).left + p1.glottal * (1 - reflection DRAIN_Z (f1 0).z)
          + p1.pressure) := by
  simp only [scatterBack, backRight, p1, f1, reflection, DRAIN_Z]
  norm_num

/-- Witness for C1 at the concrete one-segment state. -/
theorem glottis_update_witness :
    0 < 1 ∧
      (scatterBack p1 f1 1 f1 0).right
        = (f1 0).left * (1 - p1.damping)
          + p1.glottal * (1 - reflection DRAIN_Z (f1 0).z) + p1.pressure :=
  ⟨Nat.one_pos, glottis_update p1 f1 f1 1 Nat.one_pos⟩

/-- C6: one articulation-filter update moves each of the three phoneme
fields by the drag fraction of its remaining distance to the target,
and for a fixed target and drag in `(0,1]` the iterated updates
converge to the target, the distance to the target shrinking
monotonically in every field. -/
theorem articulation_filter_converges (cur tgt : Phoneme) (drag : ℝ)
    (h0 : 0 < drag) (h1 : drag ≤ 1) :
    ((advancePhoneme cur tgt drag).tongue_height
        = cur.tongue_height + (tgt.tongue_height - cur.tongue_height) * drag
      ∧ (advancePhoneme cur tgt drag).tongue_position
        = cur.tongue_position + (tgt.tongue_position - cur.tongue_position) * drag
      ∧ (advancePhoneme cur tgt drag).lips_roundedness
        = cur.lips_roundedness + (tgt.lips_roundedness - cur.lips_roundedness) * drag)
    ∧ (Filter.Tendsto (fun k => (iterAdvance cur tgt drag k).tongue_height)
        Filter.atTop (nhds tgt.tongue_height)
      ∧ Antitone (fun k => |tgt.tongue_height - (iterAdvance cur tgt drag k).tongue_height|))
    ∧ (Filter.Tendsto (fun k => (iterAdvance cur tgt drag k).tongue_position)
        Filter.atTop (nhds tgt.tongue_position)
      ∧ Antitone (fun k => |tgt.tongue_position - (iterAdvance cur tgt drag k).tongue_position|))
    ∧ (Filter.Tendsto (fun k => (iterAdvance cur tgt drag k).lips_roundedness)
        Filter.atTop (nhds tgt.lips_roundedness)
      ∧ Antitone (fun k => |tgt.lips_roundedness - (iterAdvance cur tgt drag k).lips_roundedness|)) := by
  refine ⟨⟨rfl, rfl, rfl⟩, ?_, ?_, ?_⟩
  · constructor
    · have : (fun k => (iterAdvance cur tgt drag k).tongue_height)
          = driftIter cur.tongue_height tgt.tongue_height drag :=
        funext (iterAdvance_height cur tgt drag)
      rw [this]
      exact driftIter_tendsto _ _ _ h0 h1
    · simpa only [iterAdvance_height cur tgt drag] using
        driftIter_antitone cur.tongue_height tgt.tongue_height drag h0.le h1
  · constructor
    · have : (fun k => (iterAdvance cur tgt drag k).tongue_position)
          = driftIter cur.tongue_position tgt.tongue_position drag :=
        funext (iterAdvance_position cur tgt drag)
      rw [this]
      exact driftIter_tendsto _ _ _ h0 h1
    · simpa only [iterAdvance_position cur tgt drag] using
        driftIter_antitone cur.tongue_position tgt.tongue_position drag h0.le h1
  · constructor
    · have : (fun k => (iterAdvance cur tgt drag k).lips_roundedness)
          = driftIter cur.lips_roundedness tgt.lips_roundedness drag :=
        funext (iterAdvance_lips cur tgt drag)
      rw [this]
      exact driftIter_tendsto _ _ _ h0 h1
    · simpa only [iterAdvance_lips cur tgt drag] using
        driftIter_antitone cur.lips_roundedness tgt.lips_roundedness drag h0.le h1

/-- Concrete phonemes for the C6 witness. -/
def curW : Phoneme := { tongue_height := 0, tongue_position := 0, lips_roundedness := 0 }

/-- Concrete target phoneme for the C6 witness. -/
def tgtW : Phoneme := { tongue_height := 1, tongue_position := 1, lips_roundedness := 1 }

/-- Witness for C6 at concrete phonemes and drag 1. -/
theorem articulation_filter_converges_witness :
    ((0:ℝ) < 1 ∧ (1:ℝ) ≤ 1) ∧
    (((advancePhoneme curW tgtW 1).tongue_height
        = curW.tongue_height + (tgtW.tongue_height - curW.tongue_height) * 1
      ∧ (advancePhoneme curW tgtW 1).tongue_position
        = curW.tongue_position + (tgtW.tongue_position - curW.tongue_position) * 1
      ∧ (advancePhoneme curW tgtW 1).lips_roundedness
        = curW.lips_roundedness + (tgtW.lips_roundedness - curW.lips_roundedness) * 1)
    ∧ (Filter.Tendsto (fun k => (iterAdvance curW tgtW 1 k).tongue_height)
        Filter.atTop (nhds tgtW.tongue_height)
      ∧ Antitone (fun k => |tgtW.tongue_height - (iterAdvance curW tgtW 1 k).tongue_height|))
    ∧ (Filter.Tendsto (fun k => (iterAdvance curW tgtW 1 k).tongue_position)
        Filter.atTop (nhds tgtW.tongue_position)
      ∧ Antitone (fun k => |tgtW.tongue_position - (iterAdvance curW tgtW 1 k).tongue_position|))
    ∧ (Filter.Tendsto (fun k => (iterAdvance curW tgtW 1 k).lips_roundedness)
        Filter.atTop (nhds tgtW.lips_roundedness)
      ∧ Antitone (fun k => |tgtW.lips_roundedness - (iterAdvance curW tgtW 1 k).lips_roundedness|))) :=
  ⟨⟨one_pos, le_refl 1⟩, articulation_filter_converges curW tgtW 1 one_pos (le_refl 1)⟩

/-- C2: in every reachable state of the chain every segment's
impedance (in both physical buffers) is strictly positive, hence never
exactly zero: initialization, the carry-over pass and the scattering
pass only ever produce impedances of the form `1 / area` with a
positive area, the negative-area clamp to `MIN_AREA` included. -/
theorem impedance_pos_of_reachable (s : TractState) (h : Reachable s) :
    ∀ i < s.n, 0 < (s.buf1 i).z ∧ 0 < (s.buf2 i).z := fun i hi =>
  ⟨((reachable_ok s h).1 i hi).1.1, ((reachable_ok s h).1 i hi).2.1⟩

/-- The ambient phoneme the program starts from (tract.c lines
1016-1018). -/
def phInit : Phoneme :=
  { tongue_height := 0, tongue_position := 0.5, lips_roundedness := 0 }

/-- Witness for C2 at the freshly initialized two-segment chain. -/
theorem impedance_pos_of_reachable_witness :
    Reachable (initTract 2 phInit) ∧
      ∀ i < (initTract 2 phInit).n,
        0 < ((initTract 2 phInit).buf1 i).z ∧ 0 < ((initTract 2 phInit).buf2 i).z :=
  ⟨Reachable.init 2 phInit (by norm_num [PhonemeOK, phInit]),
    impedance_pos_of_reachable _
      (Reachable.init 2 phInit (by norm_num [PhonemeOK, phInit]))⟩

/-- C10: in every reachable state every segment's rigidity equals 1
(initialization sets it to 1 and the shape function only ever writes
`LIPS_RIGIDITY = 1`), so every wall-compliance area perturbation factor
`1 - rigidity` is exactly zero and the scattering pass leaves the
carry-over impedance unchanged: the wall-compliance feature never
changes any segment's area or impedance. -/
theorem rigidity_one_wall_compliance_noop (s : TractState) (h : Reachable s) :
    (∀ i < s.n, (s.buf1 i).rigidity = 1 ∧ (s.buf2 i).rigidity = 1)
      ∧ ∀ k < s.n, 1 - (front s k).rigidity = 0
          ∧ backZ (front s) s.n k = carryZ (front s k) := by
  have hok := reachable_ok s h
  constructor
  · intro i hi
    exact ⟨(hok.1 i hi).1.2.2, (hok.1 i hi).2.2.2⟩
  · intro k hk
    have hfk : SegOK (front s k) := front_ok s hok k hk
    refine ⟨by rw [hfk.2.2]; ring, ?_⟩
    rw [backZ_eq_target _ _ _ hfk.2.2 hfk.2.1, carryZ_eq_target _ hfk.2.1]

/-- Witness for C10 at the freshly initialized two-segment chain. -/
theorem rigidity_one_wall_compliance_noop_witness :
    Reachable (initTract 2 phInit) ∧
      ((∀ i < (initTract 2 phInit).n,
          ((initTract 2 phInit).buf1 i).rigidity = 1
            ∧ ((initTract 2 phInit).buf2 i).rigidity = 1)
        ∧ ∀ k < (initTract 2 phInit).n,
            1 - (front (initTract 2 phInit) k).rigidity = 0
              ∧ backZ (front (initTract 2 phInit)) (initTract 2 phInit).n k
                = carryZ (front (initTract 2 phInit) k)) :=
  ⟨Reachable.init 2 phInit (by norm_num [PhonemeOK, phInit]),
    rigidity_one_wall_compliance_noop _
      (Reachable.init 2 phInit (by norm_num [PhonemeOK, phInit]))⟩

/-- C3 (amended): resize copies the overlapping traveling-wave
amplitudes per physical buffer — the new `buffer1`/`buffer2` segment
`i < min(N,M)` carries exactly the old `buffer1`/`buffer2` segment
`i`'s amplitudes — and the new chain's front buffer is always
`buffer1`, so the new front holds the old front's content exactly when
the old front was `buffer1`. -/
theorem resize_copies_buffers (s : TractState) (m i : ℕ)
    (hi : i < min s.n m) :
    ((resizeTract m s).buf1 i).left = (s.buf1 i).left
      ∧ ((resizeTract m s).buf1 i).right = (s.buf1 i).right
      ∧ ((resizeTract m s).buf2 i).left = (s.buf2 i).left
      ∧ ((resizeTract m s).buf2 i).right = (s.buf2 i).right
      ∧ (resizeTract m s).frontIs1 = true := by
  have h1 := lt_min_iff.mp hi
  refine ⟨?_, ?_, ?_, ?_, rfl⟩ <;> simp [resizeTract, h1.1, h1.2]

/-- Concrete pre-resize state for the C3 instances: one segment, the
two physical buffers holding different leftGoing amplitudes, and
`buffer2` currently the front buffer (as after an odd number of
samples). -/
def s3 : TractState :=
  { n := 1,
    buf1 := fun _ => { z := 1, target_z := 1, rigidity := 1, left := 3, right := 0 },
    buf2 := fun _ => { z := 1, target_z := 1, rigidity := 1, left := 5, right := 0 },
    frontIs1 := false,
    current := { tongue_height := 0, tongue_position := 0, lips_roundedness := 0 } }

/-- Counterexample to C3 as stated: when the old front buffer is
`buffer2`, the front buffer of the resized chain (always `buffer1`)
holds the old back buffer's amplitudes, not the old front buffer's. -/
theorem resize_front_content_false :
    ¬ ((front (resizeTract 1 s3) 0).left = (front s3 0).left) := by
  have h1 : (front (resizeTract 1 s3) 0).left = 3 := by
    simp [front, resizeTract, initTract, s3]
  have h2 : (front s3 0).left = 5 := by simp [front, s3]
  rw [h1, h2]
  norm_num

/-- Witness for C3 at the concrete one-segment state. -/
theorem resize_copies_buffers_witness :
    0 < min s3.n 1 ∧
      (((resizeTract 1 s3).buf1 0).left = (s3.buf1 0).left
        ∧ ((resizeTract 1 s3).buf1 0).right = (s3.buf1 0).right
        ∧ ((resizeTract 1 s3).buf2 0).left = (s3.buf2 0).left
        ∧ ((resizeTract 1 s3).buf2 0).right = (s3.buf2 0).right
        ∧ (resizeTract 1 s3).frontIs1 = true) :=
  ⟨by norm_num [s3], resize_copies_buffers s3 1 0 (by norm_num [s3])⟩

/-- C7 (amended): at the tongue-zone edges the raised-cosine profile
attains its endpoint values — target impedance
`NEUTRAL_Z / (1 - cos(tonguePosition * pi/2) * tongueHeight + MIN_AREA)`
at the first tongue index and
`NEUTRAL_Z / (1 - cos((1 - tonguePosition) * pi/2) * tongueHeight + MIN_AREA)`
at the last — which are unrelated to the adjacent throat and lip zone
impedances in general (no continuity holds at either edge). -/
theorem shape_edge_values (ph : Phoneme) (n : ℕ) (s : Segment)
    (h2 : tongueStart n + 2 ≤ tongueStop n) :
    (updateShapeSeg ph n (tongueStart n).toNat false s).target_z
      = 1 / (1 - Real.cos (ph.tongue_position * Real.pi / 2) * ph.tongue_height
          + MIN_AREA) * NEUTRAL_Z
    ∧ (updateShapeSeg ph n (tongueStop n - 1).toNat false s).target_z
      = 1 / (1 - Real.cos ((1 - ph.tongue_position) * Real.pi / 2) * ph.tongue_height
          + MIN_AREA) * NEUTRAL_Z := by
  have ha0 : 0 ≤ tongueStart n := tongueStart_nonneg n
  constructor
  · have hia : ((tongueStart n).toNat : ℤ) = tongueStart n := Int.toNat_of_nonneg ha0
    rw [updateShapeSeg_target_tongue ph n _ false s
      (by rw [hia]; omega) (by rw [hia]; omega)]
    have hcast : (((tongueStart n).toNat : ℕ) : ℝ) = ((tongueStart n : ℤ) : ℝ) := by
      exact_mod_cast hia
    rw [hcast, sub_self, zero_div, zero_sub, neg_mul, neg_div, Real.cos_neg]
  · have hb0 : 0 ≤ tongueStop n - 1 := by omega
    have hib : ((tongueStop n - 1).toNat : ℤ) = tongueStop n - 1 :=
      Int.toNat_of_nonneg hb0
    rw [updateShapeSeg_target_tongue ph n _ false s
      (by rw [hib]; omega) (by rw [hib]; omega)]
    have hden : (((tongueStop n - tongueStart n : ℤ) : ℝ) - 1) ≠ 0 := by
      have : (2 : ℝ) ≤ ((tongueStop n - tongueStart n : ℤ) : ℝ) := by
        exact_mod_cast (by omega : (2 : ℤ) ≤ tongueStop n - tongueStart n)
      linarith
    have hcast : (((tongueStop n - 1).toNat : ℕ) : ℝ) = ((tongueStop n - 1 : ℤ) : ℝ) := by
      exact_mod_cast hib
    have hnum : ((tongueStop n - 1 : ℤ) : ℝ) - ((tongueStart n : ℤ) : ℝ)
        = ((tongueStop n - tongueStart n : ℤ) : ℝ) - 1 := by
      push_cast
      ring
    rw [hcast, hnum, div_self hden]

/-- Counterexample to C7 as stated: for the neutral phoneme on a
22-segment chain the target impedance at the first tongue index is
about `NEUTRAL_Z = 1` while the adjacent throat impedance is
`THROAT_Z = 5` — nowhere near within the floor epsilon. -/
theorem shape_edge_continuity_false :
    ¬ (|(updateShapeSeg
          { tongue_height := 0, tongue_position := 0, lips_roundedness := 0 }
          22 4 false initSeg).target_z - THROAT_Z| ≤ MIN_AREA) := by
  rw [updateShapeSeg_target_tongue _ 22 4 false initSeg
    (by rw [tongueStart_22]; norm_num) (by rw [tongueStop_22]; norm_num)]
  simp only [mul_zero, zero_mul, sub_zero]
  rw [THROAT_Z, MIN_AREA, NEUTRAL_Z]
  rw [abs_le]
  intro h
  have := h.1
  norm_num at this

/-- Witness for C7 on a 22-segment chain with tongue height 1/2 and
tongue position 0. -/
theorem shape_edge_values_witness :
    tongueStart 22 + 2 ≤ tongueStop 22 ∧
      ((updateShapeSeg
          { tongue_height := 1/2, tongue_position := 0, lips_roundedness := 0 }
          22 (tongueStart 22).toNat false initSeg).target_z
        = 1 / (1 - Real.cos ((0:ℝ) * Real.pi / 2) * (1/2) + MIN_AREA) * NEUTRAL_Z
      ∧ (updateShapeSeg
          { tongue_height := 1/2, tongue_position := 0, lips_roundedness := 0 }
          22 (tongueStop 22 - 1).toNat false initSeg).target_z
        = 1 / (1 - Real.cos ((1 - (0:ℝ)) * Real.pi / 2) * (1/2) + MIN_AREA) * NEUTRAL_Z) :=
  ⟨by rw [tongueStart_22, tongueStop_22]; norm_num,
    shape_edge_values
      { tongue_height := 1/2, tongue_position := 0, lips_roundedness := 0 }
      22 initSeg (by rw [tongueStart_22, tongueStop_22]; norm_num)⟩

/-- C5 (amended): with damping in `[0,1]`, zero glottal source, zero
diaphragm pressure, zero frication noise (the spec's no-external-
injection condition), and the shape at steady state (every segment's
impedance equal to its target impedance, rigidity 1, so the carry-over
and wall-compliance passes leave the impedances unchanged), the
impedance-weighted total squared traveling-wave amplitude
`sum of z * (leftGoing^2 + rightGoing^2)` is non-increasing across one
`run_tract` step.  The unweighted sum of squares of the claim is not
non-increasing. -/
theorem energy_weighted_nonincreasing (p : Params) (tgt : Phoneme)
    (s : TractState)
    (hd0 : 0 ≤ p.damping) (hd1 : p.damping ≤ 1)
    (hg : p.glottal = 0) (hpr : p.pressure = 0)
    (hnL : ∀ k, p.noiseL k = 0) (hnR : ∀ k, p.noiseR k = 0)
    (hz : ∀ i < s.n, 0 < (front s i).z)
    (hsteady : ∀ i < s.n, (front s i).target_z = (front s i).z)
    (hrig : ∀ i < s.n, (front s i).rigidity = 1) :
    energy (front (runTract p tgt s).1) s.n ≤ energy (front s) s.n := by
  have he : energy (front (runTract p tgt s).1) s.n
      = ∑ i ∈ Finset.range s.n,
          (front s i).z * ((backLeft p (front s) s.n i) ^ 2
            + (backRight p (front s) s.n i) ^ 2) := by
    refine Finset.sum_congr rfl fun i hi => ?_
    have hi' := Finset.mem_range.mp hi
    rw [front_runTract_z p tgt s i hi' (hrig i hi') (hsteady i hi') (hz i hi'),
      front_runTract_left p tgt s i hi', front_runTract_right p tgt s i hi']
  rw [he, energy]
  exact scatter_energy_le p (front s) s.n hd0 hd1 hg hpr hnL hnR hz

/-- Concrete step parameters for the C5 instances: the default damping
0.04, zero source, zero pressure, zero noise. -/
def p5 : Params :=
  { damping := 0.04, pressure := 0, drag := 0, glottal := 0,
    noiseR := fun _ => 0, noiseL := fun _ => 0 }

/-- Concrete two-segment buffer for the C5 instances: a large impedance
drop (19 to 1) with a unit rightGoing wave about to cross it. -/
def f5buf : ℕ → Segment := fun i =>
  if i = 0 then { z := 19, target_z := 19, rigidity := 1, left := 0, right := 1 }
  else { z := 1, target_z := 1, rigidity := 1, left := 0, right := 0 }

/-- Concrete two-segment state for the C5 instances. -/
def s5 : TractState :=
  { n := 2, buf1 := f5buf, buf2 := f5buf, frontIs1 := true, current := phInit }

/-- Counterexample to C5 as stated: at an impedance drop the
transmitted wave is amplified (transmission coefficient 1.9), so with
damping 0.04, zero source and zero pressure the plain sum of squared
amplitudes grows from 1 to about 4.36 in one step. -/
theorem sum_squares_increases :
    0 < p5.damping ∧ p5.glottal = 0 ∧ p5.pressure = 0 ∧
      sumSquares (front s5) 2 < sumSquares (front (runTract p5 phInit s5).1) 2 := by
  refine ⟨by norm_num [p5], rfl, rfl, ?_⟩
  have h2 : s5.n = 2 := rfl
  have hL0 := front_runTract_left p5 phInit s5 0 (by norm_num [s5])
  have hL1 := front_runTract_left p5 phInit s5 1 (by norm_num [s5])
  have hR0 := front_runTract_right p5 phInit s5 0 (by norm_num [s5])
  have hR1 := front_runTract_right p5 phInit s5 1 (by norm_num [s5])
  rw [h2] at hL0 hL1 hR0 hR1
  simp only [sumSquares, Finset.sum_range_succ, Finset.sum_range_zero]
  rw [hL0, hL1, hR0, hR1]
  have hfront : front s5 = f5buf := rfl
  rw [hfront]
  rw [backLeft, backRight, backLeft, backRight]
  norm_num [f5buf, p5, reflection, DRAIN_Z, FRICATION]

/-- Witness for C5 at the concrete two-segment state (which satisfies
every hypothesis of the amended claim). -/
theorem energy_weighted_nonincreasing_witness :
    (0 ≤ p5.damping ∧ p5.damping ≤ 1 ∧ p5.glottal = 0 ∧ p5.pressure = 0
      ∧ (∀ k, p5.noiseL k = 0) ∧ (∀ k, p5.noiseR k = 0)
      ∧ (∀ i < s5.n, 0 < (front s5 i).z)
      ∧ (∀ i < s5.n, (front s5 i).target_z = (front s5 i).z)
      ∧ (∀ i < s5.n, (front s5 i).rigidity = 1))
    ∧ energy (front (runTract p5 phInit s5).1) s5.n ≤ energy (front s5) s5.n := by
  have hz : ∀ i < s5.n, 0 < (front s5 i).z := by
    intro i hi
    show 0 < (f5buf i).z
    rw [f5buf]
    split_ifs <;> norm_num
  have hsteady : ∀ i < s5.n, (front s5 i).target_z = (front s5 i).z := by
    intro i hi
    show (f5buf i).target_z = (f5buf i).z
    rw [f5buf]
    split_ifs <;> norm_num
  have hrig : ∀ i < s5.n, (front s5 i).rigidity = 1 := by
    intro i hi
    show (f5buf i).rigidity = 1
    rw [f5buf]
    split_ifs <;> norm_num
  exact ⟨⟨by norm_num [p5], by norm_num [p5], rfl, rfl, fun k => rfl, fun k => rfl,
      hz, hsteady, hrig⟩,
    energy_weighted_nonincreasing p5 phInit s5 (by norm_num [p5]) (by norm_num [p5])
      rfl rfl (fun k => rfl) (fun k => rfl) hz hsteady hrig⟩

/-- C8: the claim is the spec's intended error handling, but the code
never checks the result of `malloc`; with a failed allocation the
embedded resize reaches no valid state at all (the C code dereferences
the null buffer), so the previously existing chain is not preserved. -/
theorem resize_alloc_failure_crashes (m : ℕ) (s : TractState) :
    resizeTractAlloc false m s = none := rfl

end Nancealoid
